import Mathlib

/-!
Verification development for the jackpatch C extension (src/jackpatch.c).

The send queue, receive queue, time conversions and port registration logic
of the source are embedded as executable Lean definitions, and the stated
properties of the specification are settled against them.  Machine integers
(jack_nframes_t, C long) are modelled as Nat/Int with explicit reduction
modulo the word size where it matters; doubles are modelled as rationals;
allocation outcomes and the JACK server interactions (buffer availability,
registration success) are explicit parameters.
-/

namespace Jackpatch

/-- Flag bit JackPortIsInput as exposed by jack.h and re-exported by the
module (value 0x1). -/
def JackPortIsInput : Nat := 1

/-- Flag bit JackPortIsOutput as exposed by jack.h and re-exported by the
module (value 0x2). -/
def JackPortIsOutput : Nat := 2

/-- Maximum number of managed MIDI ports per client per direction
(jackpatch.c line 13). -/
def MAX_PORTS_PER_CLIENT : Nat := 256

/-- One queued MIDI message: the Message struct of jackpatch.c (lines 43-52).
The next pointer is represented by list structure; `port` is an opaque
identifier standing for the jack_port_t pointer; `time` is a jack_nframes_t
(uint32) frame count; `data` is the byte payload. -/
structure Message where
  port : Nat
  time : Nat
  data : List Nat
deriving DecidableEq

/-- Truncation toward zero: the semantics of a C double-to-integer cast for
values whose truncation is representable in the 64-bit intermediate. -/
def truncRat (q : ℚ) : ℤ := if 0 ≤ q then ⌊q⌋ else -⌊-q⌋

/-- Reduction of a truncated integer into jack_nframes_t (uint32): the low
32 bits of the two's-complement representation. -/
def castNframes (x : ℤ) : ℕ := (x % (2 ^ 32 : ℤ)).toNat

/-- Frame computation of Port_send, jackpatch.c line 883:
message->time = (jack_nframes_t)(time * (double)sample_rate). -/
def secondsToFrames (time : ℚ) (sample_rate : ℕ) : ℕ :=
  castNframes (truncRat (time * (sample_rate : ℚ)))

/-- Frame computation of Transport_set_time, jackpatch.c lines 629-639:
the time is clamped to 0 when negative, then
nframes = (jack_nframes_t)((double)sample_rate * time). -/
def Transport_set_time (time : ℚ) (sample_rate : ℕ) : ℕ :=
  castNframes (truncRat ((sample_rate : ℚ) * (if time < 0 then 0 else time)))

/-- Whether a payload element is representable as a C long: PyLong_AsLong
(jackpatch.c line 888) raises OverflowError, and Port_send returns the
failure at line 889, exactly when the Python int lies outside this range. -/
def fitsLong (value : ℤ) : Bool :=
  decide (-(2 ^ 63) ≤ value ∧ value < 2 ^ 63)

/-- Byte stored for one payload element by Port_send, jackpatch.c line 890:
*mdata = (unsigned char)(value and 0xFF) - the 64-bit two's-complement
representation of the C long masked to the low byte.  Port_send applies
this only to elements that passed the PyLong_AsLong range check (fitsLong);
for those the representation is the value reduced modulo 2^64. -/
def storeByte (value : ℤ) : ℕ :=
  ((value % (2 ^ 64 : ℤ)).toNat) &&& 255

/-- The sorted-insertion loop of Port_send (jackpatch.c lines 896-931):
insert the message before the first queued message with a strictly larger
time, or append it at the tail when no such message exists. -/
def sendQueueInsert (queue : List Message) (message : Message) : List Message :=
  match queue with
  | [] => [message]
  | current :: rest =>
    if message.time < current.time then message :: current :: rest
    else current :: sendQueueInsert rest message

/-- Port_send (jackpatch.c lines 849-934).  The state is the client's send
queue; the result pairs the error reported to the caller (none on success)
with the queue after the call.  The sequence-type check of the Python layer
is represented by taking `data` as a list; whether malloc succeeds is the
explicit parameter `alloc_ok`.  The per-element PyLong_AsLong conversion
(lines 888-889) fails with OverflowError as soon as some element is
outside the C long range.  All failure paths return before the queue lock
at line 895 is taken, so each of them leaves the queue untouched. -/
def Port_send (port : Nat) (is_mine : Bool) (port_flags : Nat)
    (alloc_ok : Bool) (data : List ℤ) (time : ℚ) (sample_rate : ℕ)
    (queue : List Message) : Option String × List Message :=
  if is_mine = false then
    (some "Only ports created by jackpatch can send MIDI messages", queue)
  else if port_flags &&& JackPortIsOutput = 0 then
    (some "Only output ports can send MIDI messages", queue)
  else if alloc_ok = false then
    (some "Failed to allocate memory for MIDI data", queue)
  else if data.all fitsLong = false then
    (some "OverflowError: Python int too large to convert to C long", queue)
  else
    (none, sendQueueInsert queue
      ⟨port, secondsToFrames time sample_rate, data.map storeByte⟩)

/-- The message-scanning loop of Client_send_messages_for_port
(jackpatch.c lines 205-250), with accumulators port_send_count and
last_time.  For a message of the drained port: if at least one message was
already emitted and the message's time does not exceed last_time, the time
is first bumped to last_time + 1; a message whose (possibly bumped) time
falls inside the block is written into the port buffer at that frame offset
and unlinked; otherwise the block size is subtracted from its (possibly
bumped) time and it stays queued.  Messages of other ports are untouched.
Returns the events written into the server buffer, in order, together with
the remaining queue. -/
def sendDrainGo (port : Nat) (nframes : Nat) :
    List Message → Nat → Nat → List (Nat × List Nat) × List Message
  | [], _, _ => ([], [])
  | message :: rest, port_send_count, last_time =>
    if message.port = port then
      let t := if 0 < port_send_count ∧ message.time ≤ last_time then
                 last_time + 1
               else message.time
      if t < nframes then
        let r := sendDrainGo port nframes rest (port_send_count + 1) t
        ((t, message.data) :: r.1, r.2)
      else
        let r := sendDrainGo port nframes rest port_send_count last_time
        (r.1, { message with time := t - nframes } :: r.2)
    else
      let r := sendDrainGo port nframes rest port_send_count last_time
      (r.1, message :: r.2)

/-- Client_send_messages_for_port (jackpatch.c lines 185-253) in the case
where the port buffer is available: the scan starts with
port_send_count = 0 and last_time = 0. -/
def Client_send_messages_for_port (port nframes : Nat)
    (queue : List Message) : List (Nat × List Nat) × List Message :=
  sendDrainGo port nframes queue 0 0

/-- The receive loop of Client_receive_messages_for_port (jackpatch.c lines
284-316) in the case where the buffer is available and every per-event get
and allocation succeeds: each server event (in-block offset, bytes) becomes
a message stamped with start_frame + offset and is attached at the tail of
the shared receive queue, in server order. -/
def Client_receive_messages_for_port (port : Nat) (start_frame : Nat)
    (events : List (Nat × List Nat)) (queue : List Message) : List Message :=
  match events with
  | [] => queue
  | event :: rest =>
    Client_receive_messages_for_port port start_frame rest
      (queue ++ [⟨port, start_frame + event.1, event.2⟩])

/-- The scanning loop of Port_receive (jackpatch.c lines 957-995): walk the
shared receive queue from the head, remove and return the first message
whose port matches. -/
def receiveScan (port : Nat) : List Message → Option Message × List Message
  | [] => (none, [])
  | message :: rest =>
    if message.port = port then (some message, rest)
    else
      let r := receiveScan port rest
      (r.1, message :: r.2)

/-- Port_receive (jackpatch.c lines 936-999).  The state is the client's
shared receive queue; on success the result carries the removed message's
payload and its time converted to seconds, or none when no message for the
port is queued. -/
def Port_receive (port : Nat) (is_mine : Bool) (port_flags : Nat)
    (sample_rate : ℕ) (queue : List Message) :
    Except String (Option (List Nat × ℚ)) × List Message :=
  if is_mine = false then
    (Except.error "Only ports created by jackpatch can receive MIDI messages",
     queue)
  else if port_flags &&& JackPortIsInput = 0 then
    (Except.error "Only input ports can receive MIDI messages", queue)
  else
    match receiveScan port queue with
    | (none, q) => (Except.ok none, q)
    | (some message, q) =>
      (Except.ok (some (message.data,
        (message.time : ℚ) / (sample_rate : ℚ))), q)

/-- Outcome of the port-registration part of Port_init. -/
structure PortInitResult where
  errored : Bool
  warned : Bool
  managed : Bool
  send_count : Nat
  receive_count : Nat
deriving DecidableEq

/-- The registration logic of Port_init (jackpatch.c lines 805-837) in the
branch where no port of the requested name existed, so jack_port_register
is called; `register_ok` is whether it returned a port.  `errored` records
whether Port_init reports failure to the caller (it returns -1 exactly when
the registered port is NULL, line 834); `warned` records the _warn call
emitted when the per-direction managed-port array is full; `managed`
records whether the port was stored in the client's managed array. -/
def Port_init_register (register_ok : Bool) (flags : Nat)
    (send_count receive_count : Nat) : PortInitResult :=
  if flags &&& JackPortIsInput ≠ 0 then
    if MAX_PORTS_PER_CLIENT ≤ receive_count then
      ⟨!register_ok, true, false, send_count, receive_count⟩
    else
      ⟨!register_ok, false, true, send_count, receive_count + 1⟩
  else if flags &&& JackPortIsOutput ≠ 0 then
    if MAX_PORTS_PER_CLIENT ≤ send_count then
      ⟨!register_ok, true, false, send_count, receive_count⟩
    else
      ⟨!register_ok, false, true, send_count + 1, receive_count⟩
  else
    ⟨!register_ok, false, false, send_count, receive_count⟩

/-! ### Helper lemmas -/

/-- Truncation toward zero of an integer-valued rational is the identity. -/
lemma truncRat_intCast (z : ℤ) : truncRat ((z : ℚ)) = z := by
  rw [truncRat]
  by_cases h : (0 : ℚ) ≤ (z : ℚ)
  · rw [if_pos h, Int.floor_intCast]
  · rw [if_neg h, ← Int.cast_neg, Int.floor_intCast]
    exact neg_neg z

/-- The low byte of the two's-complement representation of a C long is the
value reduced modulo 256. -/
lemma storeByte_eq_emod (value : ℤ) : storeByte value = (value % 256).toNat := by
  unfold storeByte
  have h64 : (2 : ℤ) ^ 64 = 18446744073709551616 := by norm_num
  rw [h64]
  have h := Nat.and_pow_two_sub_one_eq_mod
    ((value % (18446744073709551616 : ℤ)).toNat) 8
  norm_num at h
  rw [h]
  omega

/-- Concrete evaluations of Port_send at seconds -1 and 0 with sample rate
48000: the negative time is converted without clamping and wraps modulo
2^32 into frame 4294919296. -/
lemma Port_send_values :
    Port_send 0 true 2 true [] (-1) 48000 [] = (none, [⟨0, 4294919296, []⟩]) ∧
    Port_send 0 true 2 true [] 0 48000 [] = (none, [⟨0, 0, []⟩]) := by
  have hc1 : ¬ (true = false) := by simp
  have hc2 : ¬ ((2 : ℕ) &&& JackPortIsOutput = 0) := by decide
  have h1 : secondsToFrames (-1) 48000 = 4294919296 := by
    have hq : ((-1 : ℚ) * ((48000 : ℕ) : ℚ)) = (((-48000 : ℤ) : ℚ)) := by
      push_cast; ring
    rw [secondsToFrames, hq, truncRat_intCast, castNframes]
    decide
  have h2 : secondsToFrames 0 48000 = 0 := by
    have hq : ((0 : ℚ) * ((48000 : ℕ) : ℚ)) = (((0 : ℤ) : ℚ)) := by
      push_cast; ring
    rw [secondsToFrames, hq, truncRat_intCast, castNframes]
    decide
  have hov : ¬ (([] : List ℤ).all fitsLong = false) := by decide
  constructor
  · unfold Port_send
    rw [if_neg hc1, if_neg hc2, if_neg hc1, if_neg hov, h1]
    rfl
  · unfold Port_send
    rw [if_neg hc1, if_neg hc2, if_neg hc1, if_neg hov, h2]
    rfl

/-- Inserting into the send queue produces a permutation of consing. -/
lemma sendQueueInsert_perm (m : Message) :
    ∀ q : List Message, (sendQueueInsert q m).Perm (m :: q) := by
  intro q
  induction q with
  | nil => exact List.Perm.refl _
  | cons c rest ih =>
    rw [sendQueueInsert]
    by_cases h : m.time < c.time
    · rw [if_pos h]
    · rw [if_neg h]
      exact (ih.cons c).trans (List.Perm.swap m c rest)

/-- Inserting into a time-sorted send queue keeps it time-sorted. -/
lemma sendQueueInsert_sorted (m : Message) :
    ∀ q : List Message, q.Pairwise (fun a b => a.time ≤ b.time) →
      (sendQueueInsert q m).Pairwise (fun a b => a.time ≤ b.time) := by
  intro q
  induction q with
  | nil =>
    intro _
    exact List.pairwise_singleton _ m
  | cons c rest ih =>
    intro hs
    rcases hs with _ | ⟨hhead, htail⟩
    rw [sendQueueInsert]
    by_cases h : m.time < c.time
    · rw [if_pos h]
      refine List.Pairwise.cons ?_ (List.Pairwise.cons hhead htail)
      intro b hb
      rcases List.mem_cons.mp hb with rfl | hb2
      · exact le_of_lt h
      · exact le_trans (le_of_lt h) (hhead b hb2)
    · rw [if_neg h]
      refine List.Pairwise.cons ?_ (ih htail)
      intro b hb
      have hb3 := (sendQueueInsert_perm m rest).mem_iff.mp hb
      rcases List.mem_cons.mp hb3 with rfl | hb4
      · exact Nat.le_of_not_lt h
      · exact hhead b hb4

/-- Folding a batch of enqueues over a time-sorted queue yields a
time-sorted permutation of all the messages. -/
lemma sendQueueFold (ms : List Message) :
    ∀ q : List Message, q.Pairwise (fun a b => a.time ≤ b.time) →
      (ms.foldl sendQueueInsert q).Pairwise (fun a b => a.time ≤ b.time) ∧
      (ms.foldl sendQueueInsert q).Perm (ms ++ q) := by
  induction ms with
  | nil =>
    intro q hq
    exact ⟨hq, by simp⟩
  | cons m rest ih =>
    intro q hq
    rw [List.foldl_cons]
    obtain ⟨h1, h2⟩ := ih (sendQueueInsert q m) (sendQueueInsert_sorted m q hq)
    refine ⟨h1, ?_⟩
    exact h2.trans
      (((List.Perm.append_left rest (sendQueueInsert_perm m q)).trans
        List.perm_middle))

/-- Two pairwise facts combine into a pairwise conjunction. -/
lemma pairwise_and {α : Type} {R S : α → α → Prop} :
    ∀ {l : List α}, l.Pairwise R → l.Pairwise S →
      l.Pairwise fun a b => R a b ∧ S a b
  | [], _, _ => List.Pairwise.nil
  | _ :: _, List.Pairwise.cons h1 t1, List.Pairwise.cons h2 t2 =>
    List.Pairwise.cons (fun b hb => ⟨h1 b hb, h2 b hb⟩) (pairwise_and t1 t2)

/-- Draining a strictly time-sorted queue whose messages all belong to the
drained port and all fall inside the block emits every message in queue
order and leaves the queue empty. -/
lemma sendDrainGo_sorted (p n : Nat) :
    ∀ (q : List Message) (c lt : Nat),
      q.Pairwise (fun a b => a.time < b.time) →
      (∀ m ∈ q, m.port = p) → (∀ m ∈ q, m.time < n) →
      (c = 0 ∨ ∀ m ∈ q, lt < m.time) →
      sendDrainGo p n q c lt = (q.map (fun m => (m.time, m.data)), []) := by
  intro q
  induction q with
  | nil =>
    intro c lt _ _ _ _
    rfl
  | cons m rest ih =>
    intro c lt hsort hport hblock hinv
    rcases hsort with _ | ⟨hhead, htail⟩
    have hmp : m.port = p := hport m (List.mem_cons_self m rest)
    have hmn : m.time < n := hblock m (List.mem_cons_self m rest)
    have hbump : ¬ (0 < c ∧ m.time ≤ lt) := by
      rcases hinv with h0 | hall
      · omega
      · have := hall m (List.mem_cons_self m rest)
        omega
    have hrec := ih (c + 1) m.time htail
      (fun x hx => hport x (List.mem_cons_of_mem m hx))
      (fun x hx => hblock x (List.mem_cons_of_mem m hx))
      (Or.inr fun x hx => hhead x hx)
    simp only [sendDrainGo, if_pos hmp, if_neg hbump, if_pos hmn, hrec,
      List.map_cons]

/-- Within one drain the emitted frame offsets are strictly increasing, and
when at least one message was already emitted they all exceed last_time. -/
lemma sendDrainGo_strict (p n : Nat) :
    ∀ (q : List Message) (c lt : Nat),
      ((sendDrainGo p n q c lt).1.map Prod.fst).Pairwise (· < ·) ∧
      (0 < c → ∀ x ∈ (sendDrainGo p n q c lt).1.map Prod.fst, lt < x) := by
  intro q
  induction q with
  | nil =>
    intro c lt
    simp [sendDrainGo]
  | cons m rest ih =>
    intro c lt
    by_cases hp : m.port = p
    · by_cases hb : 0 < c ∧ m.time ≤ lt
      · by_cases hn : lt + 1 < n
        · have heq : (sendDrainGo p n (m :: rest) c lt).1 =
              (lt + 1, m.data) :: (sendDrainGo p n rest (c + 1) (lt + 1)).1 := by
            simp only [sendDrainGo, if_pos hp, if_pos hb, if_pos hn]
          rw [heq]
          obtain ⟨ihp, ihgt⟩ := ih (c + 1) (lt + 1)
          constructor
          · rw [List.map_cons]
            exact List.Pairwise.cons (fun x hx => ihgt (Nat.succ_pos c) x hx) ihp
          · intro _ x hx
            rw [List.map_cons] at hx
            rcases List.mem_cons.mp hx with rfl | hx2
            · omega
            · have := ihgt (Nat.succ_pos c) x hx2
              omega
        · have heq : (sendDrainGo p n (m :: rest) c lt).1 =
              (sendDrainGo p n rest c lt).1 := by
            simp only [sendDrainGo, if_pos hp, if_pos hb, if_neg hn]
          rw [heq]
          exact ih c lt
      · by_cases hn : m.time < n
        · have heq : (sendDrainGo p n (m :: rest) c lt).1 =
              (m.time, m.data) :: (sendDrainGo p n rest (c + 1) m.time).1 := by
            simp only [sendDrainGo, if_pos hp, if_neg hb, if_pos hn]
          rw [heq]
          obtain ⟨ihp, ihgt⟩ := ih (c + 1) m.time
          constructor
          · rw [List.map_cons]
            exact List.Pairwise.cons (fun x hx => ihgt (Nat.succ_pos c) x hx) ihp
          · intro hc x hx
            rw [List.map_cons] at hx
            have hltm : lt < m.time := by omega
            rcases List.mem_cons.mp hx with rfl | hx2
            · exact hltm
            · have := ihgt (Nat.succ_pos c) x hx2
              omega
        · have heq : (sendDrainGo p n (m :: rest) c lt).1 =
              (sendDrainGo p n rest c lt).1 := by
            simp only [sendDrainGo, if_pos hp, if_neg hb, if_neg hn]
          rw [heq]
          exact ih c lt
    · have heq : (sendDrainGo p n (m :: rest) c lt).1 =
          (sendDrainGo p n rest c lt).1 := by
        simp only [sendDrainGo, if_neg hp]
      rw [heq]
      exact ih c lt

/-- The Port_receive scan returns the first message of the requested port
and removes exactly that message. -/
lemma receiveScan_eq (p : Nat) :
    ∀ q : List Message,
      receiveScan p q = ((q.filter (fun m => m.port == p)).head?,
                         q.eraseP (fun m => m.port == p)) := by
  intro q
  induction q with
  | nil => rfl
  | cons m rest ih =>
    by_cases h : m.port = p
    · simp [receiveScan, h, List.filter_cons, List.eraseP_cons]
    · simp [receiveScan, h, List.filter_cons, List.eraseP_cons, ih]

/-- The receive fill appends the block's events, in server order, at the
tail of the shared receive queue. -/
lemma fill_append (p sf : Nat) :
    ∀ (evs : List (Nat × List Nat)) (q : List Message),
      Client_receive_messages_for_port p sf evs q =
        q ++ evs.map (fun e => (⟨p, sf + e.1, e.2⟩ : Message)) := by
  intro evs
  induction evs with
  | nil =>
    intro q
    simp [Client_receive_messages_for_port]
  | cons e rest ih =>
    intro q
    simp only [Client_receive_messages_for_port]
    rw [ih]
    simp

/-! ### Claim theorems -/

/-- C3: an event enqueued on a managed output channel with time
2*block_size + k (0 ≤ k < block_size) is not emitted by the first two
drains with that block size — each subtracts block_size from its stored
time and leaves it queued — and is emitted by exactly the third drain, at
frame offset k. -/
theorem rebase_third_drain (p B k : Nat) (d : List Nat) (h : k < B) :
    Client_send_messages_for_port p B [⟨p, 2 * B + k, d⟩] =
      ([], [⟨p, B + k, d⟩]) ∧
    Client_send_messages_for_port p B [⟨p, B + k, d⟩] = ([], [⟨p, k, d⟩]) ∧
    Client_send_messages_for_port p B [⟨p, k, d⟩] = ([(k, d)], []) := by
  have h1 : ¬ (2 * B + k < B) := by omega
  have h2 : ¬ (B + k < B) := by omega
  have e1 : 2 * B + k - B = B + k := by omega
  have e2 : B + k - B = k := by omega
  refine ⟨?_, ?_, ?_⟩
  · simp [Client_send_messages_for_port, sendDrainGo, h1, e1]
  · simp [Client_send_messages_for_port, sendDrainGo, h2, e2]
  · simp [Client_send_messages_for_port, sendDrainGo, h]

/-- Witness for C3 at k = 3, B = 8. -/
theorem rebase_third_drain_witness :
    3 < 8 ∧
    (Client_send_messages_for_port 0 8 [⟨0, 19, [144]⟩] =
        ([], [⟨0, 11, [144]⟩]) ∧
      Client_send_messages_for_port 0 8 [⟨0, 11, [144]⟩] =
        ([], [⟨0, 3, [144]⟩]) ∧
      Client_send_messages_for_port 0 8 [⟨0, 3, [144]⟩] =
        ([(3, [144])], [])) :=
  ⟨by decide, rebase_third_drain 0 8 3 [144] (by decide)⟩

/-- C5 counterexample: Port_send does not clamp a negative seconds value to
0 before conversion — sending at -1 s with sample rate 48000 queues frame
time 4294919296 (the truncated product wrapped into uint32), not frame 0 as
sending at 0 s does. -/
theorem time_clamp_counterexample :
    Port_send 0 true 2 true [] (-1) 48000 [] ≠
      Port_send 0 true 2 true [] 0 48000 [] := by
  rw [Port_send_values.1, Port_send_values.2]
  decide

/-- C5 amended: only the transport time setter clamps negative seconds to 0
before converting to frames; Port_send converts the signed product directly,
so a negative seconds argument wraps modulo 2^32 instead of behaving as 0
(witnessed at -1 s, 48 kHz). -/
theorem time_clamp (time : ℚ) (rate : Nat) (h : time < 0) :
    Transport_set_time time rate = Transport_set_time 0 rate ∧
    Port_send 0 true 2 true [] (-1) 48000 [] ≠
      Port_send 0 true 2 true [] 0 48000 [] := by
  constructor
  · unfold Transport_set_time
    rw [if_pos h, if_neg (lt_irrefl (0 : ℚ))]
  · rw [Port_send_values.1, Port_send_values.2]
    decide

/-- Witness for the amended C5 at time = -1, rate = 48000. -/
theorem time_clamp_witness :
    (-1 : ℚ) < 0 ∧
    (Transport_set_time (-1) 48000 = Transport_set_time 0 48000 ∧
      Port_send 0 true 2 true [] (-1) 48000 [] ≠
        Port_send 0 true 2 true [] 0 48000 []) :=
  ⟨by norm_num, time_clamp (-1) 48000 (by norm_num)⟩

/-- C6 counterexample: registering a port at the per-direction limit does
not fail — Port_init reports no error to the caller (errored = false); it
only warns and leaves the port unmanaged. -/
theorem port_capacity_counterexample :
    (Port_init_register true JackPortIsOutput MAX_PORTS_PER_CLIENT 0).errored
        = false ∧
    (Port_init_register true JackPortIsOutput MAX_PORTS_PER_CLIENT 0).warned
        = true ∧
    (Port_init_register true JackPortIsOutput MAX_PORTS_PER_CLIENT 0).managed
        = false := by
  decide

/-- C6 amended: once the per-direction limit MAX_PORTS_PER_CLIENT = 256 is
reached, registering a further channel succeeds (no error is raised) but
emits a RuntimeWarning and leaves the channel unmanaged — it still exists
at the server level but is not stored in the client's managed arrays, so it
loses send/receive support; below the limit the channel is managed and the
per-direction count grows by one. -/
theorem port_capacity (s r s2 r2 : Nat)
    (hs : MAX_PORTS_PER_CLIENT ≤ s) (hr : MAX_PORTS_PER_CLIENT ≤ r)
    (hs2 : s2 < MAX_PORTS_PER_CLIENT) (hr2 : r2 < MAX_PORTS_PER_CLIENT) :
    Port_init_register true JackPortIsOutput s r = ⟨false, true, false, s, r⟩ ∧
    Port_init_register true JackPortIsInput s r = ⟨false, true, false, s, r⟩ ∧
    Port_init_register true JackPortIsOutput s2 r2 =
      ⟨false, false, true, s2 + 1, r2⟩ ∧
    Port_init_register true JackPortIsInput s2 r2 =
      ⟨false, false, true, s2, r2 + 1⟩ := by
  have hoi : ¬ (JackPortIsOutput &&& JackPortIsInput ≠ 0) := by decide
  have hoo : JackPortIsOutput &&& JackPortIsOutput ≠ 0 := by decide
  have hii : JackPortIsInput &&& JackPortIsInput ≠ 0 := by decide
  refine ⟨?_, ?_, ?_, ?_⟩
  · rw [Port_init_register.eq_def, if_neg hoi, if_pos hoo, if_pos hs]
    simp
  · rw [Port_init_register.eq_def, if_pos hii, if_pos hr]
    simp
  · rw [Port_init_register.eq_def, if_neg hoi, if_pos hoo,
      if_neg (Nat.not_le.mpr hs2)]
    simp
  · rw [Port_init_register.eq_def, if_pos hii, if_neg (Nat.not_le.mpr hr2)]
    simp

/-- Witness for the amended C6 at counts 256 (at the limit) and 0. -/
theorem port_capacity_witness :
    MAX_PORTS_PER_CLIENT ≤ 256 ∧ MAX_PORTS_PER_CLIENT ≤ 256 ∧
    0 < MAX_PORTS_PER_CLIENT ∧ 0 < MAX_PORTS_PER_CLIENT ∧
    (Port_init_register true JackPortIsOutput 256 256 =
        ⟨false, true, false, 256, 256⟩ ∧
      Port_init_register true JackPortIsInput 256 256 =
        ⟨false, true, false, 256, 256⟩ ∧
      Port_init_register true JackPortIsOutput 0 0 =
        ⟨false, false, true, 1, 0⟩ ∧
      Port_init_register true JackPortIsInput 0 0 =
        ⟨false, false, true, 0, 1⟩) :=
  ⟨by decide, by decide, by decide, by decide,
    port_capacity 256 256 0 0 (by decide) (by decide) (by decide) (by decide)⟩

/-- C7: whenever Port_send reports a failure — in particular when the
message allocation fails — the send queue is left exactly as it was: no
event is inserted, none is modified or removed, and the error is returned
synchronously. -/
theorem failed_send_queue_unchanged (p : Nat) (is_mine : Bool) (flags : Nat)
    (alloc_ok : Bool) (data : List ℤ) (t : ℚ) (rate : Nat)
    (q : List Message) (e : String)
    (h : (Port_send p is_mine flags alloc_ok data t rate q).1 = some e) :
    (Port_send p is_mine flags alloc_ok data t rate q).2 = q ∧
    Port_send p true 2 false data t rate q =
      (some "Failed to allocate memory for MIDI data", q) := by
  constructor
  · unfold Port_send at h ⊢
    split_ifs at h ⊢ <;> simp_all
  · rfl

/-- Witness for C7: a send with a failing allocation on an empty queue. -/
theorem failed_send_queue_unchanged_witness :
    (Port_send 0 true 2 false [] 0 1 []).1 =
      some "Failed to allocate memory for MIDI data" ∧
    ((Port_send 0 true 2 false [] 0 1 []).2 = [] ∧
      Port_send 0 true 2 false [] 0 1 [] =
        (some "Failed to allocate memory for MIDI data", [])) :=
  ⟨rfl, failed_send_queue_unchanged 0 true 2 false [] 0 1 [] _ rfl⟩

/-- C9: a send on a port whose flags lack JackPortIsOutput fails with an
error, and a receive on a port whose flags lack JackPortIsInput fails with
an error; both rejections happen before any queue access, so the queues
are returned unchanged. -/
theorem direction_rejected (p p2 rate rate2 : Nat) (alloc_ok : Bool)
    (data : List ℤ) (t : ℚ) (q q2 : List Message) (flags flags2 : Nat)
    (h : flags &&& JackPortIsOutput = 0) (h2 : flags2 &&& JackPortIsInput = 0) :
    Port_send p true flags alloc_ok data t rate q =
      (some "Only output ports can send MIDI messages", q) ∧
    Port_receive p2 true flags2 rate2 q2 =
      (Except.error "Only input ports can receive MIDI messages", q2) := by
  constructor
  · unfold Port_send
    rw [if_neg (by simp), if_pos h]
  · unfold Port_receive
    rw [if_neg (by simp), if_pos h2]

/-- Witness for C9: send on an input-only port (flags 1) and receive on an
output-only port (flags 2). -/
theorem direction_rejected_witness :
    (1 : Nat) &&& JackPortIsOutput = 0 ∧ (2 : Nat) &&& JackPortIsInput = 0 ∧
    (Port_send 0 true 1 true [144] 0 48000 [] =
        (some "Only output ports can send MIDI messages", []) ∧
      Port_receive 0 true 2 48000 [⟨0, 7, [144]⟩] =
        (Except.error "Only input ports can receive MIDI messages",
         [⟨0, 7, [144]⟩])) :=
  ⟨by decide, by decide,
    direction_rejected 0 0 48000 48000 true [144] 0 [] [⟨0, 7, [144]⟩] 1 2
      (by decide) (by decide)⟩

/-- C10 counterexample: a payload element outside the C long range is not
silently truncated to its low byte — PyLong_AsLong raises OverflowError
and Port_send fails with the queue unchanged, storing nothing (the claim
predicts a successful send storing 2^63 mod 256 = 0). -/
theorem payload_overflow_counterexample :
    Port_send 0 true 2 true [2 ^ 63] 0 48000 [] =
      (some "OverflowError: Python int too large to convert to C long",
       []) := by
  have hc1 : ¬ (true = false) := by simp
  have hc2 : ¬ ((2 : ℕ) &&& JackPortIsOutput = 0) := by decide
  unfold Port_send
  rw [if_neg hc1, if_neg hc2, if_neg hc1, if_pos (by decide)]

/-- C10 amended: for payload elements within the C long range, a
successful Port_send stores each element's low byte — its value reduced
modulo 256 — silently truncating values outside 0..255 rather than
rejecting them; a payload element outside the C long range instead makes
Port_send fail with OverflowError (PyLong_AsLong, jackpatch.c lines
888-889) before any queue mutation. -/
theorem payload_truncated_mod_256 (p rate : Nat) (data data2 : List ℤ)
    (value : ℤ) (t : ℚ) (q : List Message)
    (h : data.all fitsLong = true) (_hv : fitsLong value = true)
    (h2 : data2.all fitsLong = false) :
    Port_send p true 2 true data t rate q =
      (none, sendQueueInsert q
        ⟨p, secondsToFrames t rate, data.map storeByte⟩) ∧
    storeByte value = (value % 256).toNat ∧
    Port_send p true 2 true data2 t rate q =
      (some "OverflowError: Python int too large to convert to C long",
       q) := by
  have hc1 : ¬ (true = false) := by simp
  have hc2 : ¬ ((2 : ℕ) &&& JackPortIsOutput = 0) := by decide
  refine ⟨?_, storeByte_eq_emod value, ?_⟩
  · unfold Port_send
    rw [if_neg hc1, if_neg hc2, if_neg hc1, if_neg (by rw [h]; simp)]
  · unfold Port_send
    rw [if_neg hc1, if_neg hc2, if_neg hc1, if_pos h2]

/-- Witness for the amended C10: payload [144, 300, -1] is stored with
every byte reduced modulo 256, while payload [2^63] is rejected with the
queue unchanged. -/
theorem payload_truncated_mod_256_witness :
    ([144, 300, -1] : List ℤ).all fitsLong = true ∧
    fitsLong 300 = true ∧
    ([2 ^ 63] : List ℤ).all fitsLong = false ∧
    (Port_send 0 true 2 true [144, 300, -1] 0 48000 [] =
        (none, sendQueueInsert []
          ⟨0, secondsToFrames 0 48000,
            ([144, 300, -1] : List ℤ).map storeByte⟩) ∧
      storeByte 300 = ((300 : ℤ) % 256).toNat ∧
      Port_send 0 true 2 true [2 ^ 63] 0 48000 [] =
        (some "OverflowError: Python int too large to convert to C long",
         [])) :=
  ⟨by decide, by decide, by decide,
    payload_truncated_mod_256 0 48000 [144, 300, -1] [2 ^ 63] 300 0 []
      (by decide) (by decide) (by decide)⟩

/-- C1 counterexample: with a single event at time 5 and a drain with block
size 5 — which satisfies the claim's "block size ≥ the maximum enqueued
time" — nothing is written into the server buffer, because emission
requires time < block size; the claim's conclusion (all events written, in
sorted order) fails. -/
theorem send_drain_boundary_counterexample :
    ¬ ((Client_send_messages_for_port 0 5
        (([⟨0, 5, [144]⟩] : List Message).foldl sendQueueInsert [])).1.Perm
      (([⟨0, 5, [144]⟩] : List Message).map (fun m => (m.time, m.data)))) := by
  decide

/-- C1 amended: for every batch of enqueues with pairwise-distinct times on
the same output channel, a single drain whose block size is strictly
greater than the maximum enqueued time (block size ≥ max time + 1, since
the code emits only events with time < block size) writes all of the
events into the server buffer in strictly increasing time order — the
input times sorted ascending — and leaves the queue empty. -/
theorem send_drain_ordering (p n : Nat) (ms : List Message)
    (hport : ∀ m ∈ ms, m.port = p)
    (hdist : ms.Pairwise (fun a b => a.time ≠ b.time))
    (hblock : ∀ m ∈ ms, m.time < n) :
    (Client_send_messages_for_port p n (ms.foldl sendQueueInsert [])).1.Perm
      (ms.map (fun m => (m.time, m.data))) ∧
    ((Client_send_messages_for_port p n
      (ms.foldl sendQueueInsert [])).1.map Prod.fst).Pairwise (· < ·) ∧
    (Client_send_messages_for_port p n (ms.foldl sendQueueInsert [])).2
      = [] := by
  obtain ⟨hsorted, hperm⟩ := sendQueueFold ms [] List.Pairwise.nil
  rw [List.append_nil] at hperm
  have hsymm : ∀ {a b : Message},
      (fun a b : Message => a.time ≠ b.time) a b →
      (fun a b : Message => a.time ≠ b.time) b a := fun h => h.symm
  have hne : (ms.foldl sendQueueInsert []).Pairwise
      (fun a b => a.time ≠ b.time) :=
    (hperm.pairwise_iff hsymm).mpr hdist
  have hstrict : (ms.foldl sendQueueInsert []).Pairwise
      (fun a b => a.time < b.time) :=
    (pairwise_and hsorted hne).imp fun hab => lt_of_le_of_ne hab.1 hab.2
  have hkey := sendDrainGo_sorted p n (ms.foldl sendQueueInsert []) 0 0
    hstrict
    (fun m hm => hport m (hperm.mem_iff.mp hm))
    (fun m hm => hblock m (hperm.mem_iff.mp hm))
    (Or.inl rfl)
  unfold Client_send_messages_for_port
  rw [hkey]
  refine ⟨hperm.map _, ?_, rfl⟩
  rw [List.map_map]
  have : (Prod.fst ∘ fun m : Message => (m.time, m.data)) =
      fun m : Message => m.time := rfl
  rw [this]
  exact List.pairwise_map.mpr hstrict

/-- Witness for the amended C1: two events at times 5 and 2 drained with
block size 6. -/
theorem send_drain_ordering_witness :
    (∀ m ∈ ([⟨0, 5, [1]⟩, ⟨0, 2, [2]⟩] : List Message), m.port = 0) ∧
    ([⟨0, 5, [1]⟩, ⟨0, 2, [2]⟩] : List Message).Pairwise
      (fun a b => a.time ≠ b.time) ∧
    (∀ m ∈ ([⟨0, 5, [1]⟩, ⟨0, 2, [2]⟩] : List Message), m.time < 6) ∧
    ((Client_send_messages_for_port 0 6
        (([⟨0, 5, [1]⟩, ⟨0, 2, [2]⟩] : List Message).foldl
          sendQueueInsert [])).1.Perm
      (([⟨0, 5, [1]⟩, ⟨0, 2, [2]⟩] : List Message).map
        (fun m => (m.time, m.data))) ∧
    ((Client_send_messages_for_port 0 6
        (([⟨0, 5, [1]⟩, ⟨0, 2, [2]⟩] : List Message).foldl
          sendQueueInsert [])).1.map Prod.fst).Pairwise (· < ·) ∧
    (Client_send_messages_for_port 0 6
        (([⟨0, 5, [1]⟩, ⟨0, 2, [2]⟩] : List Message).foldl
          sendQueueInsert [])).2 = []) :=
  ⟨by decide, by decide, by decide,
    send_drain_ordering 0 6 [⟨0, 5, [1]⟩, ⟨0, 2, [2]⟩]
      (by decide) (by decide) (by decide)⟩

/-- C2: enqueueing two events with equal time t on the same channel and
draining with a block that covers both (t + 1 < block size) emits them at
times t and t + 1 — the later-inserted event is pushed forward by one
frame — and in general one drain never emits two events of its channel at
the same time: the emitted offsets are pairwise strictly increasing. -/
theorem collision_bump (p n t : Nat) (d1 d2 : List Nat) (q : List Message)
    (h : t + 1 < n) :
    Client_send_messages_for_port p n
      (sendQueueInsert (sendQueueInsert [] ⟨p, t, d1⟩) ⟨p, t, d2⟩) =
      ([(t, d1), (t + 1, d2)], []) ∧
    ((Client_send_messages_for_port p n q).1.map Prod.fst).Pairwise
      (· < ·) := by
  constructor
  · have hq : sendQueueInsert (sendQueueInsert [] ⟨p, t, d1⟩) ⟨p, t, d2⟩ =
        [⟨p, t, d1⟩, ⟨p, t, d2⟩] := by
      simp [sendQueueInsert]
    rw [hq]
    have ht : t < n := by omega
    simp [Client_send_messages_for_port, sendDrainGo, ht, h]
  · exact (sendDrainGo_strict p n q 0 0).1

/-- Witness for C2 at t = 0 with block size 2. -/
theorem collision_bump_witness :
    0 + 1 < 2 ∧
    (Client_send_messages_for_port 0 2
        (sendQueueInsert (sendQueueInsert [] ⟨0, 0, [1]⟩) ⟨0, 0, [2]⟩) =
        ([(0, [1]), (1, [2])], []) ∧
    ((Client_send_messages_for_port 0 2
        ([⟨0, 1, [3]⟩] : List Message)).1.map Prod.fst).Pairwise (· < ·)) :=
  ⟨by decide, collision_bump 0 2 0 [1] [2] [⟨0, 1, [3]⟩] (by decide)⟩

/-- C4: popping a channel from the shared receive FIFO returns the oldest
still-queued message of that channel (the head of the channel's
subsequence, converted to payload and seconds) and removes exactly that
message, regardless of how other channels' events are interleaved; and the
fill appends arriving events at the tail in arrival order — so successive
pops return each channel's events in arrival order. -/
theorem receive_fifo (p sf rate : Nat) (q : List Message)
    (evs : List (Nat × List Nat)) :
    (Port_receive p true 1 rate q).1 =
      Except.ok (((q.filter (fun m => m.port == p)).head?).map
        (fun m => (m.data, (m.time : ℚ) / (rate : ℚ)))) ∧
    (Port_receive p true 1 rate q).2 =
      q.eraseP (fun m => m.port == p) ∧
    Client_receive_messages_for_port p sf evs q =
      q ++ evs.map (fun e => (⟨p, sf + e.1, e.2⟩ : Message)) := by
  have hrs := receiveScan_eq p q
  refine ⟨?_, ?_, fill_append p sf evs q⟩
  · unfold Port_receive
    rw [if_neg (by simp), if_neg (by decide), hrs]
    cases hc : (q.filter (fun m => m.port == p)).head? <;> simp [hc]
  · unfold Port_receive
    rw [if_neg (by simp), if_neg (by decide), hrs]
    cases hc : (q.filter (fun m => m.port == p)).head? <;> simp [hc]

/-- C8 counterexample: at s = 2^32 seconds and sample rate 1 (s ≥ 0,
r > 0), the frame conversion wraps modulo 2^32 to 0, so converting back
gives 0 seconds — off by 2^32, far more than one sample period. -/
theorem roundtrip_counterexample :
    ¬ (|((secondsToFrames (2 ^ 32 : ℚ) 1 : ℕ) : ℚ) / ((1 : ℕ) : ℚ) -
        (2 ^ 32 : ℚ)| < 1 / ((1 : ℕ) : ℚ)) := by
  have h : secondsToFrames (2 ^ 32 : ℚ) 1 = 0 := by
    have hq : ((2 ^ 32 : ℚ)) * ((1 : ℕ) : ℚ) = (((2 ^ 32 : ℤ) : ℚ)) := by
      push_cast; ring
    rw [secondsToFrames, hq, truncRat_intCast, castNframes]
    decide
  rw [h]
  push_cast
  rw [zero_div, zero_sub, abs_neg, abs_of_nonneg (by positivity)]
  norm_num

/-- C8 amended: for every s ≥ 0 and sample rate r > 0 with s * r < 2^32
(so that the frame count fits in jack_nframes_t without wrapping),
converting s to frames as Port_send does (truncation of s * r) and back to
seconds as Port_receive does (frames divided by r) recovers s to within
one sample period 1 / r. -/
theorem seconds_frames_roundtrip (s : ℚ) (r : Nat) (hs : 0 ≤ s)
    (hr : 0 < r) (hb : s * (r : ℚ) < 2 ^ 32) :
    |((secondsToFrames s r : ℕ) : ℚ) / (r : ℚ) - s| < 1 / (r : ℚ) := by
  have hrq : (0 : ℚ) < (r : ℚ) := by exact_mod_cast hr
  have hxnn : 0 ≤ s * (r : ℚ) := mul_nonneg hs hrq.le
  have hfl0 : (0 : ℤ) ≤ ⌊s * (r : ℚ)⌋ := Int.floor_nonneg.mpr hxnn
  have hflt : ⌊s * (r : ℚ)⌋ < 2 ^ 32 := by
    rw [Int.floor_lt]
    push_cast
    exact hb
  have hval : secondsToFrames s r = ⌊s * (r : ℚ)⌋.toNat := by
    rw [secondsToFrames, truncRat, if_pos hxnn, castNframes,
      Int.emod_eq_of_lt hfl0 hflt]
  have hcast : ((⌊s * (r : ℚ)⌋.toNat : ℕ) : ℚ) = ((⌊s * (r : ℚ)⌋ : ℤ) : ℚ) := by
    exact_mod_cast Int.toNat_of_nonneg hfl0
  rw [hval, hcast]
  have hxs : ((⌊s * (r : ℚ)⌋ : ℤ) : ℚ) / (r : ℚ) - s =
      (((⌊s * (r : ℚ)⌋ : ℤ) : ℚ) - s * (r : ℚ)) / (r : ℚ) := by
    field_simp
    ring
  rw [hxs, abs_div, abs_of_pos hrq, div_lt_div_iff_of_pos_right hrq,
    abs_sub_comm,
    abs_of_nonneg (sub_nonneg.mpr (Int.floor_le (s * (r : ℚ))))]
  have := Int.sub_one_lt_floor (s * (r : ℚ))
  linarith

/-- Witness for the amended C8 at s = 2 seconds, r = 48000. -/
theorem seconds_frames_roundtrip_witness :
    (0 : ℚ) ≤ 2 ∧ 0 < 48000 ∧ (2 : ℚ) * ((48000 : ℕ) : ℚ) < 2 ^ 32 ∧
    |((secondsToFrames 2 48000 : ℕ) : ℚ) / ((48000 : ℕ) : ℚ) - 2| <
      1 / ((48000 : ℕ) : ℚ) :=
  ⟨by norm_num, by norm_num, by push_cast; norm_num,
    seconds_frames_roundtrip 2 48000 (by norm_num) (by norm_num)
      (by push_cast; norm_num)⟩

end Jackpatch
